import Mathlib

/-!
Verification of the castportal mDNS discovery and Cast message channel
against its C sources (castptl_discover.c, castptl_message.c,
castptl_device.c, castptl_app.c, php_castptl.h).

The development is a shallow embedding: byte buffers are lists of byte
values (Nat, each 0..255 in real datagrams), C pointers into a buffer are
indices, and every C loop is a fueled total function whose fuel is large
enough for every terminating execution of the C loop.  Reads past the end
of a buffer resolve to 0 (the C code would read indeterminate memory
there; no claim below depends on such a read).
-/

namespace CastPortal

/-- Dereference of a byte pointer into a message buffer. -/
def byteAt (buf : List Nat) (i : Nat) : Nat := buf.getD i 0

/-- The len bytes starting at index i (C pointer region read). -/
def bytesAt (buf : List Nat) (i len : Nat) : List Nat :=
  (List.range len).map (fun k => byteAt buf (i + k))

/-- The C-string contents of a byte sequence: everything before the first
NUL byte (strcpy / strcmp semantics). -/
def cstr (l : List Nat) : List Nat := l.takeWhile (fun b => b ≠ 0)

/-- Render copied C-string bytes as a Lean string, for record fields. -/
def natsToString (l : List Nat) : String := String.mk (l.map Char.ofNat)

/-- Byte values of a string literal (ASCII). -/
def strBytes (s : String) : List Nat := s.toList.map Char.toNat

/-- 16-bit big-endian value at an index (ntohs of an unaligned read). -/
def be16 (buf : List Nat) (off : Nat) : Nat :=
  (byteAt buf off <<< 8) ||| byteAt buf (off + 1)

/-- 32-bit big-endian value at an index. -/
def be32 (buf : List Nat) (off : Nat) : Nat :=
  (byteAt buf off <<< 24) ||| (byteAt buf (off + 1) <<< 16) |||
    (byteAt buf (off + 2) <<< 8) ||| byteAt buf (off + 3)

/-- Modelled from the spec: WXBuffer_Unpack format n (16-bit big-endian
unsigned, toolkit buffer.c is not under src).  Returns none (the NULL
sentinel) on insufficient input, otherwise the value and new offset. -/
def unpackU16 (buf : List Nat) (off : Nat) : Option (Nat × Nat) :=
  if off + 2 ≤ buf.length then some (be16 buf off, off + 2) else none

/-- Modelled from the spec: WXBuffer_Unpack format N (32-bit big-endian). -/
def unpackU32 (buf : List Nat) (off : Nat) : Option (Nat × Nat) :=
  if off + 4 ≤ buf.length then some (be32 buf off, off + 4) else none

/-- The castDiscover header unpack "nnnnnn": six 16-bit fields, all-or-nothing. -/
def unpackDnsHeader (buf : List Nat) (off : Nat) :
    Option (Nat × Nat × Nat × Nat × Nat × Nat × Nat) :=
  if off + 12 ≤ buf.length then
    some (be16 buf off, be16 buf (off + 2), be16 buf (off + 4), be16 buf (off + 6),
          be16 buf (off + 8), be16 buf (off + 10), off + 12)
  else none

/-- The per-record unpack "nnNn": type, class, TTL, rdlength, new offset. -/
def unpackRecHeader (buf : List Nat) (off : Nat) :
    Option (Nat × Nat × Nat × Nat × Nat) :=
  if off + 10 ≤ buf.length then
    some (be16 buf off, be16 buf (off + 2), be32 buf (off + 4), be16 buf (off + 8),
          off + 10)
  else none

/-! ### parseQName (castptl_discover.c lines 86-139)

The C loop state: ptr (index pos), offset, limit, the redirect flag, the
accumulated QNameSegment list, and the last value of slen (none models the
C variable before its first assignment). -/

structure QNameState where
  pos : Nat
  offset : Nat
  limit : Nat
  redirect : Bool
  frags : List (List Nat)
  lastLen : Option Nat
deriving Repr, DecidableEq

structure QNameExit where
  frags : List (List Nat)
  offset : Nat
  limit : Nat
  lastLen : Option Nat
deriving Repr, DecidableEq

/-- One C iteration of the while loop of parseQName: either the loop exits
(.inl, covering both the offset-below-limit test failing and the slen = 0
break) or it continues with the next state (.inr). -/
def parseQNameStep (buf : List Nat) (s : QNameState) : QNameExit ⊕ QNameState :=
  if s.offset < s.limit then
    let slen := byteAt buf s.pos
    let pos1 := s.pos + 1
    let off1 := if s.redirect then s.offset else s.offset + 1
    if slen &&& 0xC0 = 0xC0 then
      -- compression pointer: follow the 14-bit absolute target offset
      let target := ((slen &&& 0x3F) <<< 8) ||| byteAt buf pos1
      let off2 := if s.redirect then off1 else off1 + 1
      let slen2 := byteAt buf target
      if slen2 = 0 then .inl ⟨s.frags, off2, buf.length, some 0⟩
      else
        .inr ⟨target + 1 + slen2, off2, buf.length, true,
              s.frags ++ [bytesAt buf (target + 1) slen2], some slen2⟩
    else if slen = 0 then .inl ⟨s.frags, off1, s.limit, some 0⟩
    else
      let off2 := if s.redirect then off1 else off1 + slen
      .inr ⟨pos1 + slen, off2, s.limit, s.redirect,
            s.frags ++ [bytesAt buf pos1 slen], some slen⟩
  else .inl ⟨s.frags, s.offset, s.limit, s.lastLen⟩

/-- The while loop itself: iterate parseQNameStep.  Each fuel unit is one C
iteration; none means the loop was still running when the fuel ran out
(the C loop has no built-in bound). -/
def parseQNameLoop (buf : List Nat) : Nat → QNameState → Option QNameExit
  | 0, _ => none
  | fuel+1, s =>
    match parseQNameStep buf s with
    | .inl e => some e
    | .inr s1 => parseQNameLoop buf fuel s1

/-- Fuel used when executing parseQName on concrete datagrams; ample for
every name that the C loop finishes on the canned data. -/
def qnameFuel (buf : List Nat) : Nat := 2 * buf.length + 16

/-- Result of parseQName: the segment list (none = the C NULL return, which
covers both the error paths and the empty-name case) and the resulting
msgBuffer offset (updated only when maxLen < 0, even on error). -/
structure QNameOut where
  frags : Option (List (List Nat))
  offset : Nat
deriving Repr, DecidableEq

def parseQName (buf : List Nat) (off : Nat) (maxLen : Int) : QNameOut :=
  let limit := if maxLen < 0 then buf.length else off + maxLen.toNat
  match parseQNameLoop buf (qnameFuel buf) ⟨off, off, limit, false, [], none⟩ with
  | none => ⟨none, off⟩
  | some e =>
    let newOff := if maxLen < 0 then e.offset else off
    if e.limit < e.offset ∨ e.lastLen ≠ some 0 ∨ e.frags = [] then ⟨none, newOff⟩
    else ⟨some e.frags, newOff⟩

/-! ### skipQName (castptl_discover.c lines 141-172) -/

def skipQNameLoop (buf : List Nat) : Nat → Nat → Option Nat → Nat × Option Nat
  | 0, off, last => (off, last)
  | fuel+1, off, last =>
    if off < buf.length then
      let slen := byteAt buf off
      if slen &&& 0xC0 = 0xC0 then (off + 2, some 0)
      else if slen = 0 then (off + 1, some 0)
      else skipQNameLoop buf fuel (off + 1 + slen) (some slen)
    else (off, last)

/-- skipQName: (success flag, new offset); the offset is stored back even on
error, exactly as in the C. -/
def skipQName (buf : List Nat) (off : Nat) : Bool × Nat :=
  let r := skipQNameLoop buf (buf.length + 1) off none
  (¬(buf.length < r.1 ∨ r.2 ≠ some 0), r.1)

/-! ### Device record and the additional-record dispatch
(castptl_discover.c lines 456-594) -/

structure CastDeviceInfo where
  id : String
  name : String
  model : String
  ipAddr : String
  port : Nat
deriving Repr, DecidableEq

/-- cvtIPv4: sprintf of the four rdata bytes as a dotted quad. -/
def cvtIPv4 (buf : List Nat) (off : Nat) : List Nat :=
  strBytes (toString (byteAt buf off) ++ "." ++ toString (byteAt buf (off + 1)) ++ "." ++
            toString (byteAt buf (off + 2)) ++ "." ++ toString (byteAt buf (off + 3)))

/-- The lowercase hex-digit table of cvtIPv6, as a nibble-indexed function
(ASCII digits below ten, ASCII lowercase letters from ten). -/
def hexNibbleChars (n : Nat) : Char :=
  Char.ofNat (if n < 10 then 48 + n else 87 + n)

/-- The four nibbles written by the inner loop of cvtIPv6 (positions 0-3 get
the digits from most to least significant; all four are written). -/
def quadHex (q : Nat) : List Char :=
  [hexNibbleChars ((q >>> 12) &&& 0xF),
   hexNibbleChars ((q >>> 8) &&& 0xF),
   hexNibbleChars ((q >>> 4) &&& 0xF),
   hexNibbleChars (q &&& 0xF)]

/-- cvtIPv6: for each of the eight 16-bit quads, emit its four hex digits if
nonzero (nothing for a zero quad), with a colon after every quad but the
last. -/
def cvtIPv6 (buf : List Nat) (off : Nat) : List Nat :=
  (List.range 8).foldl (fun acc i =>
    let q := be16 buf (off + 2 * i)
    let acc := if q ≠ 0 then acc ++ (quadHex q).map Char.toNat else acc
    if i ≠ 7 then acc ++ [0x3A] else acc) []

structure TxtOut where
  wrk : CastDeviceInfo
  offset : Nat
  resid : Nat
  scratch : List Nat
deriving Repr, DecidableEq

/-- The TXT character-string loop (lines 552-570).  pos is the C ptr, off
the msgBuffer offset, resid what remains of rLen; after each segment the C
advances ptr and offset by slen+1 and decrements rLen by slen+1 (the
post-increment slen++ idiom).  scratch is the txtBuff scratch buffer. -/
def txtLoop (buf : List Nat) :
    Nat → CastDeviceInfo → Nat → Nat → Nat → List Nat → TxtOut
  | 0, wrk, _, off, resid, scr => ⟨wrk, off, resid, scr⟩
  | fuel+1, wrk, pos, off, resid, scr =>
    if 0 < resid then
      let slen := byteAt buf pos
      if resid ≤ slen then ⟨wrk, off, resid, scr⟩
      else
        let txt := bytesAt buf (pos + 1) slen
        let wrk :=
          if txt.take 3 = strBytes "id=" then
            { wrk with id := natsToString (cstr (txt.drop 3)) }
          else if txt.take 3 = strBytes "fn=" then
            { wrk with name := natsToString (cstr (txt.drop 3)) }
          else if txt.take 3 = strBytes "md=" then
            { wrk with model := natsToString (cstr (txt.drop 3)) }
          else wrk
        txtLoop buf fuel wrk (pos + 1 + slen) (off + (slen + 1)) (resid - (slen + 1)) txt
    else ⟨wrk, off, resid, scr⟩

/-- Dispatch on one additional record (lines 546-583): returns the updated
work record, the msgBuffer offset after the final offset += rLen, and the
txtBuff scratch contents.  A (1) and AAAA (28) records only format text
into the scratch buffer, which nothing reads back. -/
def applyAdditionalRecord (buf : List Nat) (wrk : CastDeviceInfo)
    (off rType rLen : Nat) (scr : List Nat) : CastDeviceInfo × Nat × List Nat :=
  if rType = 1 then (wrk, off + rLen, if rLen = 4 then cvtIPv4 buf off else scr)
  else if rType = 16 then
    let t := txtLoop buf (rLen + 1) wrk off off rLen scr
    (t.wrk, t.offset + t.resid, t.scratch)
  else if rType = 28 then (wrk, off + rLen, if rLen = 16 then cvtIPv6 buf off else scr)
  else if rType = 33 then
    ((if 6 ≤ rLen then { wrk with port := be16 buf (off + 4) } else wrk), off + rLen, scr)
  else (wrk, off + rLen, scr)

/-- The authority-record skip loop (lines 524-534); none when the loop broke
early (the datagram is then skipped). -/
def authLoop (buf : List Nat) : Nat → Nat → Option Nat
  | 0, off => some off
  | n+1, off =>
    let sk := skipQName buf off
    if sk.1 = false then none
    else
      match unpackRecHeader buf sk.2 with
      | none => none
      | some (_, _, _, rLen, off2) => authLoop buf n (off2 + rLen)

/-- The additional-record loop (lines 537-584). -/
def addLoop (buf : List Nat) :
    Nat → CastDeviceInfo → Nat → List Nat → Option (CastDeviceInfo × Nat × List Nat)
  | 0, wrk, off, scr => some (wrk, off, scr)
  | n+1, wrk, off, scr =>
    let sk := skipQName buf off
    if sk.1 = false then none
    else
      match unpackRecHeader buf sk.2 with
      | none => none
      | some (rType, _, _, rLen, off2) =>
        let st := applyAdditionalRecord buf wrk off2 rType rLen scr
        addLoop buf n st.1 st.2.1 st.2.2

def gcLabel : List Nat := strBytes "_googlecast"
def tcpLabel : List Nat := strBytes "_tcp"
def localLabel : List Nat := strBytes "local"

/-- Outcome of processing one received datagram inside the receive loop:
emit a record, continue with the next datagram, or break out of the loop. -/
inductive DatagramOutcome
  | emit (r : CastDeviceInfo)
  | skipd
  | abort
deriving Repr, DecidableEq

/-- Processing of one datagram (lines 456-594).  The source address string
(inet_ntop of the sender) is copied into wrk.ipAddr before any parsing, and
also sits in the txtBuff scratch buffer at that point. -/
def parseDiscoverResponse (src : String) (resp : List Nat) : DatagramOutcome :=
  let wrk : CastDeviceInfo := ⟨"", "", "Chromecast", src, 8009⟩
  match unpackDnsHeader resp 0 with
  | none => .skipd
  | some (tx, fl, qd, an, au, ad, off0) =>
    if ¬(tx = 0xFEED ∧ fl = 0x8400 ∧ qd = 0 ∧ an = 1) then .skipd
    else
      let q := parseQName resp off0 (-1)
      match q.frags with
      | none => .abort
      | some frags =>
        match unpackRecHeader resp q.offset with
        | none => .abort
        | some (rType, rClass, _, rLen, off1) =>
          if ¬(rType = 0x0C ∧ rClass &&& 0x7FFF = 1) then .skipd
          else
            let nameOk : Bool :=
              match frags with
              | [a, b, c] => cstr a == gcLabel && cstr b == tcpLabel && cstr c == localLabel
              | _ => false
            if ¬nameOk then .skipd
            else
              let p := parseQName resp off1 (rLen : Int)
              let wrk :=
                match p.frags with
                | some (f :: _) => { wrk with name := natsToString ((cstr f).take 255) }
                | _ => wrk
              let off2 := off1 + rLen
              match authLoop resp au off2 with
              | none => .skipd
              | some off3 =>
                match addLoop resp ad wrk off3 (strBytes src) with
                | none => .skipd
                | some (w, _, _) => .emit w

/-! ### Canned test data (castptl_discover.c lines 175-274) and the
discovery driver (castDiscover, lines 314-599) -/

def tstRespOne : List Nat := [
  254, 237, 132, 0, 0, 0, 0, 1, 0, 0, 0, 3, 11, 95, 103, 111,
  111, 103, 108, 101, 99, 97, 115, 116, 4, 95, 116, 99, 112, 5, 108, 111,
  99, 97, 108, 0, 0, 12, 0, 1, 0, 0, 0, 120, 0, 46, 43, 67,
  104, 114, 111, 109, 101, 99, 97, 115, 116, 45, 50, 98, 54, 51, 57, 55,
  48, 104, 98, 99, 50, 50, 104, 50, 54, 98, 54, 98, 50, 97, 48, 52,
  57, 50, 56, 50, 53, 100, 98, 56, 100, 50, 192, 12, 192, 46, 0, 16,
  128, 1, 0, 0, 17, 148, 0, 179, 35, 105, 100, 61, 54, 51, 57, 55,
  48, 104, 98, 99, 50, 50, 104, 50, 54, 98, 54, 98, 50, 97, 48, 52,
  57, 50, 56, 50, 53, 100, 98, 56, 100, 50, 102, 52, 35, 99, 100, 61,
  67, 66, 51, 48, 49, 49, 65, 53, 52, 70, 70, 70, 70, 52, 70, 54,
  65, 69, 65, 48, 68, 55, 67, 57, 67, 54, 66, 70, 68, 65, 55, 68,
  19, 114, 109, 61, 70, 56, 67, 65, 70, 66, 57, 55, 65, 70, 65, 51,
  54, 49, 48, 70, 5, 118, 101, 61, 48, 53, 13, 109, 100, 61, 67, 104,
  114, 111, 109, 101, 99, 97, 115, 116, 18, 105, 99, 61, 47, 115, 101, 116,
  117, 112, 47, 105, 99, 111, 110, 46, 112, 110, 103, 9, 102, 110, 61, 68,
  101, 110, 32, 84, 86, 7, 99, 97, 61, 52, 49, 48, 49, 4, 115, 116,
  61, 48, 15, 98, 115, 61, 70, 65, 56, 70, 67, 65, 57, 50, 49, 48,
  65, 50, 4, 110, 102, 61, 49, 3, 114, 115, 61, 192, 46, 0, 33, 128,
  1, 0, 0, 0, 120, 0, 45, 0, 0, 0, 0, 31, 73, 36, 48, 53,
  52, 50, 55, 57, 48, 102, 45, 97, 102, 48, 54, 45, 102, 56, 54, 97,
  45, 49, 102, 49, 98, 45, 54, 52, 56, 57, 56, 48, 57, 48, 102, 57,
  102, 52, 192, 29, 193, 45, 0, 1, 128, 1, 0, 0, 0, 120, 0, 4,
  10, 12, 1, 141]

def tstRespTwo : List Nat := [
  254, 237, 132, 0, 0, 0, 0, 1, 0, 0, 0, 4, 11, 95, 103, 111,
  111, 103, 108, 101, 99, 97, 115, 116, 4, 95, 116, 99, 112, 5, 108, 111,
  99, 97, 108, 0, 0, 12, 0, 1, 0, 0, 0, 120, 0, 46, 43, 67,
  104, 114, 111, 109, 101, 99, 97, 115, 116, 45, 54, 98, 48, 104, 51, 98,
  50, 54, 48, 50, 51, 100, 50, 51, 50, 101, 48, 55, 50, 97, 50, 98,
  101, 50, 56, 97, 50, 52, 98, 55, 98, 55, 192, 12, 192, 46, 0, 16,
  128, 1, 0, 0, 17, 148, 0, 195, 35, 105, 100, 61, 54, 98, 48, 104,
  51, 98, 50, 54, 48, 50, 51, 100, 50, 51, 50, 101, 48, 55, 50, 97,
  50, 98, 101, 50, 56, 97, 50, 52, 98, 55, 98, 55, 35, 99, 100, 61,
  67, 52, 69, 50, 65, 65, 55, 66, 65, 67, 51, 68, 65, 48, 65, 48,
  57, 55, 56, 55, 68, 52, 69, 68, 54, 50, 48, 53, 53, 68, 68, 55,
  19, 114, 109, 61, 55, 50, 50, 69, 52, 49, 65, 54, 53, 48, 51, 54,
  52, 54, 67, 69, 5, 118, 101, 61, 48, 53, 19, 109, 100, 61, 67, 104,
  114, 111, 109, 101, 99, 97, 115, 116, 32, 85, 108, 116, 114, 97, 18, 105,
  99, 61, 47, 115, 101, 116, 117, 112, 47, 105, 99, 111, 110, 46, 112, 110,
  103, 19, 102, 110, 61, 84, 83, 84, 32, 67, 104, 114, 111, 109, 101, 32,
  80, 97, 110, 101, 108, 7, 99, 97, 61, 52, 49, 48, 49, 4, 115, 116,
  61, 48, 15, 98, 115, 61, 70, 65, 56, 70, 67, 65, 55, 56, 52, 53,
  65, 50, 4, 110, 102, 61, 49, 3, 114, 115, 61, 192, 46, 0, 33, 128,
  1, 0, 0, 0, 120, 0, 45, 0, 0, 0, 0, 31, 73, 36, 56, 50,
  50, 102, 54, 97, 52, 48, 45, 52, 50, 57, 56, 45, 50, 50, 55, 99,
  45, 50, 57, 57, 99, 45, 48, 100, 55, 52, 57, 51, 56, 50, 102, 57,
  100, 57, 192, 29, 193, 55, 0, 1, 128, 1, 0, 0, 0, 120, 0, 4,
  10, 12, 1, 116, 193, 55, 0, 28, 128, 1, 0, 0, 0, 120, 0, 16,
  32, 22, 12, 216, 69, 103, 44, 208, 0, 0, 0, 18, 0, 0, 0, 0]

def tstPongResp : List Nat := [
  0, 0, 0, 84, 8, 0, 18, 10, 114, 101, 99, 101, 105, 118, 101, 114,
  45, 48, 26, 8, 115, 101, 110, 100, 101, 114, 45, 48, 34, 39, 117, 114,
  110, 58, 120, 45, 99, 97, 115, 116, 58, 99, 111, 109, 46, 103, 111, 111,
  103, 108, 101, 46, 99, 97, 115, 116, 46, 116, 112, 46, 104, 101, 97, 114,
  116, 98, 101, 97, 116, 40, 0, 50, 15, 123, 34, 116, 121, 112, 101, 34,
  58, 34, 80, 79, 78, 71, 34, 125]

/-- Test-mode fixed source addresses (inet_pton round-tripped back through
inet_ntop yields exactly these strings) per family. -/
def cannedSrc (family : Nat) : String :=
  if family = 1 then "10.11.12.13" else "2016:cd8:4567:2cd0::12"

def cannedResp (family : Nat) : List Nat :=
  if family = 1 then tstRespOne else tstRespTwo

/-- Observable network effects of the discovery pass. -/
inductive DiscoverAction
  | openSocket (family : Nat)
  | sendQuery (family : Nat)
  | recvDatagram (family : Nat)
deriving Repr, DecidableEq

/-- Environment for one address family: whether socket open, non-blocking
switch, multicast options and the query send all succeed, and the real
datagrams (source address text, bytes) read before the wait times out. -/
structure FamilyEnv where
  setupOk : Bool
  arrivals : List (String × List Nat)

/-- Non-test receive processing: each datagram is parsed; skipd continues
with the next one and abort breaks out of the receive loop. -/
def runArrivalsReal : List (String × List Nat) → List CastDeviceInfo
  | [] => []
  | (src, bytes) :: rest =>
    match parseDiscoverResponse src bytes with
    | .emit r => r :: runArrivalsReal rest
    | .skipd => runArrivalsReal rest
    | .abort => []

/-- One address-family pass of castDiscover.  With the test flag set the
loop skips every real datagram (the continue at line 446) and, when the
wait finally times out, processes the canned datagram for the family with
its fixed source address; the loop then exits because the timeout budget is
exhausted. -/
def discoverFamily (tstMode : Bool) (family : Nat) (env : FamilyEnv) :
    List CastDeviceInfo × List DiscoverAction :=
  if ¬env.setupOk then ([], [.openSocket family])
  else
    let recvActs := env.arrivals.map (fun _ => DiscoverAction.recvDatagram family)
    if tstMode then
      let recs :=
        match parseDiscoverResponse (cannedSrc family) (cannedResp family) with
        | .emit r => [r]
        | _ => []
      (recs, [.openSocket family, .sendQuery family] ++ recvActs ++ [.recvDatagram family])
    else
      (runArrivalsReal env.arrivals, [.openSocket family, .sendQuery family] ++ recvActs)

/-- castDiscover: one pass per family, a family running only when its bit
is set in ipMode (the continue at line 338).  waitTm only scales how long
each family listens (with the configured default when nonpositive); it does
not change which canned records test mode yields. -/
def castDiscover (tstMode : Bool) (ipMode : Nat) (waitTm : Int)
    (env1 env2 : FamilyEnv) : List CastDeviceInfo × List DiscoverAction :=
  let f1 := if 1 &&& ipMode ≠ 0 then discoverFamily tstMode 1 env1 else ([], [])
  let f2 := if 2 &&& ipMode ≠ 0 then discoverFamily tstMode 2 env2 else ([], [])
  let _ := waitTm
  (f1.1 ++ f2.1, f1.2 ++ f2.2)

/-! ### Cast message channel (castptl_message.c)

parseInboundMessages reassembles length-prefixed CastMessage frames from
the rolling read buffer, validates the self-describing protocol-buffer
fields, filters, and dispatches to the response callback. -/

/-- Modelled from the spec: WXBuffer_Unpack format y, the protocol-buffer
varint (toolkit buffer.c is not under src): little-endian 7-bit groups,
1 to 5 bytes for a 32-bit value, value reduced mod 2^32; none (NULL
sentinel, no advance) on truncated input. -/
def unpackVarintLoop (buf : List Nat) : Nat → Nat → Nat → Nat → Option (Nat × Nat)
  | 0, _, _, _ => none
  | fuel+1, pos, shift, acc =>
    if pos < buf.length then
      let b := byteAt buf pos
      let acc := acc ||| ((b &&& 0x7F) <<< shift)
      if b &&& 0x80 ≠ 0 then unpackVarintLoop buf fuel (pos + 1) (shift + 7) acc
      else some (acc % 2 ^ 32, pos + 1)
    else none

def unpackVarint (buf : List Nat) (pos : Nat) : Option (Nat × Nat) :=
  unpackVarintLoop buf 5 pos 0 0

/-- The four known namespace URNs, aligned to the CastNamespace enumeration. -/
def namespaces : List (List Nat) :=
  [strBytes "urn:x-cast:com.google.cast.tp.connection",
   strBytes "urn:x-cast:com.google.cast.tp.deviceauth",
   strBytes "urn:x-cast:com.google.cast.tp.heartbeat",
   strBytes "urn:x-cast:com.google.cast.receiver"]

def NS_ANY : Int := -1
def NS_CONNECTION : Int := 0
def NS_HEARTBEAT : Int := 2
def NS_RECEIVER : Int := 3
def NS_UNKNOWN : Int := 9999

/-- The namespace scan of fragment index 4: first matching index, else
NS_UNKNOWN. -/
def findNamespace (buf : List Nat) (pos fragLen : Nat) : Int :=
  match (List.range 4).find? (fun i =>
      let ns := namespaces.getD i []
      fragLen == ns.length && bytesAt buf pos fragLen == ns) with
  | some i => (i : Int)
  | none => NS_UNKNOWN

/-- State of the fragment-reading loop (lines 841-945).  offset is the
rolling-buffer read offset; the Option fields model the -1 sentinels; the
content slice (position, length) and fragLen deliberately persist across
frames, as the corresponding C locals are not reset per message (content
starts as none, modelling the first-frame NULL intent of the check at line
953; fragLen starts at 0). -/
structure FrameScan where
  offset : Nat
  protoVersion : Option Nat
  nsVal : Int
  contentType : Option Nat
  isSenderSession : Option Nat
  isPortalReceiver : Option Nat
  content : Option (Nat × Nat)
  fragLenCarry : Nat
deriving Repr, DecidableEq

inductive ScanRes
  | err
  | ok (s : FrameScan)
deriving Repr, DecidableEq

/-- The inner while loop reading tagged fragments until offset reaches
msgLimit.  Every goto msg_error is .err.  Fuel: the offset strictly
increases every iteration, so msgLimit + 1 units always suffice. -/
def scanFields (buf : List Nat) (msgLimit : Nat) : Nat → FrameScan → ScanRes
  | 0, _ => .err
  | fuel+1, s =>
    if s.offset < msgLimit then
      match unpackVarint buf s.offset with
      | none => .err
      | some (tag, offTag) =>
        if tag = 0xFFFFFFFF ∨ msgLimit ≤ offTag then .err
        else
          let fragIdx := tag >>> 3
          let wire := tag &&& 0x07
          if wire = 3 ∨ wire = 4 then .err
          else
            -- wire-type handling: fragLen, plus the varint value for wire 0
            let lenRead : Option (Nat × Option Nat × Nat) :=
              if wire = 0 then
                match unpackVarint buf offTag with
                | none => none
                | some (v, offV) =>
                  if v = 0xFFFFFFFF ∨ msgLimit ≤ offV then none
                  else some (0, some v, offV)
              else if wire = 1 then some (8, none, offTag)
              else if wire = 2 then
                match unpackVarint buf offTag with
                | none => none
                | some (v, offV) =>
                  if v = 0xFFFFFFFF ∨ msgLimit ≤ offV then none
                  else some (v, none, offV)
              else if wire = 5 then some (4, none, offTag)
              else some (s.fragLenCarry, none, offTag)  -- wire 6/7: stale fragLen
            match lenRead with
            | none => .err
            | some (fragLen, varVal, off1) =>
              -- fragment index dispatch
              let upd : Option (FrameScan × Nat) :=
                if fragIdx = 1 then
                  if wire ≠ 0 then none
                  else some ({ s with protoVersion := varVal }, fragLen)
                else if fragIdx = 2 then
                  if fragLen = 10 ∧ bytesAt buf off1 10 = strBytes "receiver-0" then
                    some ({ s with isPortalReceiver := some 0 }, fragLen)
                  else some ({ s with isPortalReceiver := some 1 }, 999)
                else if fragIdx = 3 then
                  if fragLen = 8 ∧ bytesAt buf off1 8 = strBytes "sender-0" then
                    some ({ s with isSenderSession := some 0 }, fragLen)
                  else some ({ s with isSenderSession := some 1 }, 999)
                else if fragIdx = 4 then
                  some ({ s with nsVal := findNamespace buf off1 fragLen }, fragLen)
                else if fragIdx = 5 then
                  if wire ≠ 0 then none
                  else match varVal with
                    | some v => if v ≠ 0 ∧ v ≠ 1 then none
                                else some ({ s with contentType := some v }, fragLen)
                    | none => none
                else if fragIdx = 6 ∨ fragIdx = 7 then
                  some ({ s with content := some (off1, fragLen) }, fragLen)
                else none
              match upd with
              | none => .err
              | some (s1, fragLen1) =>
                scanFields buf msgLimit fuel
                  { s1 with offset := off1 + fragLen1, fragLenCarry := fragLen1 }
    else .ok s

/-- Result of decoding and validating one frame (scanFields, the exact-fit
check at line 948, and the required-element validation at lines 951-957). -/
inductive FrameDecode
  | bad
  | good (isSS isPR : Nat) (nsVal : Int) (ct : Nat) (cpos clen : Nat) (flc : Nat)
deriving Repr, DecidableEq

def decodeFrame (buf : List Nat) (msgLimit : Nat) (content0 : Option (Nat × Nat))
    (flc : Nat) : FrameDecode :=
  match scanFields buf msgLimit (msgLimit + 1)
      ⟨4, none, NS_UNKNOWN, none, none, none, content0, flc⟩ with
  | .err => .bad
  | .ok s =>
    if s.offset ≠ msgLimit then .bad
    else
      match s.protoVersion, s.isSenderSession, s.isPortalReceiver,
            s.contentType, s.content with
      | some 0, some iss, some ipr, some ct, some (cpos, clen) =>
        if s.nsVal = NS_UNKNOWN then .bad
        else .good iss ipr s.nsVal ct cpos clen s.fragLenCarry
      | _, _, _, _, _ => .bad

/-- Receive filters of castReceiveMessage: tri-valued ints, negative = any. -/
structure Filters where
  fss : Int
  fpr : Int
  ns : Int
  expJson : Int
deriving Repr, DecidableEq

/-- Transliteration of the matched computation (lines 960-977). -/
def frameMatched (f : Filters) (isSS isPR : Nat) (nsVal : Int) (ct : Nat) : Bool :=
  let m := true
  let m := if 0 ≤ f.fss ∧ f.fss ≠ 0 ∧ isSS ≠ 0 then false else m
  let m := if 0 ≤ f.fss ∧ f.fss = 0 ∧ isSS ≠ 0 then false else m
  let m := if 0 ≤ f.fpr ∧ f.fpr ≠ 0 ∧ isPR = 0 then false else m
  let m := if 0 ≤ f.fpr ∧ f.fpr = 0 ∧ isPR ≠ 0 then false else m
  let m := if f.ns ≠ NS_ANY ∧ nsVal ≠ f.ns then false else m
  let m := if 0 ≤ f.expJson ∧ ct = 0 ∧ f.expJson = 0 then false else m
  let m := if 0 ≤ f.expJson ∧ ct ≠ 0 ∧ f.expJson ≠ 0 then false else m
  m

/-- Parsed JSON values as produced by the toolkit WXJSON decoder. -/
inductive WXJSONValue where
  | jnull
  | jbool (b : Bool)
  | jint (n : Int)
  | jstr (s : String)
  | jarr (elems : List WXJSONValue)
  | jobj (entries : List (String × WXJSONValue))

/-- Content handed to the response callback. -/
inductive CbArg
  | jsonContent (v : WXJSONValue)
  | binContent (bytes : List Nat) (len : Nat)

/-- Return of the response callback: ignore is the NULL pointer (keep
reading), err is CPTL_RESP_ERROR, value s any other marker pointer. -/
inductive CbR
  | ignore
  | err
  | value (s : String)
deriving Repr, DecidableEq

/-- Buffer plus the function-level C locals that persist across frames. -/
structure PIMState where
  buffer : List Nat
  content : Option (Nat × Nat)
  fragLenCarry : Nat
  warns : Nat
  cbCalls : Nat
deriving Repr, DecidableEq

/-- Observable result of parseInboundMessages: the returned pointer
(.ignore = NULL), the rolling buffer contents afterwards, warnings emitted
on the msg_error / bad-JSON paths, and callback invocations. -/
structure PIMOut where
  result : CbR
  buffer : List Nat
  warns : Nat
  cbCalls : Nat
deriving Repr, DecidableEq

/-- consumeBuffer (line 800): drop len bytes off the front. -/
def consumeBuffer (buf : List Nat) (len : Nat) : List Nat := buf.drop len

/-- The msg_error exit (lines 1020-1024): warning, frame discarded only
when msgLen is nonzero, CPTL_RESP_ERROR returned. -/
def msgErrorExit (st : PIMState) (msgLen msgLimit : Nat) : PIMOut :=
  ⟨.err, if msgLen ≠ 0 then consumeBuffer st.buffer msgLimit else st.buffer,
   st.warns + 1, st.cbCalls⟩

/-- The outer while loop of parseInboundMessages (lines 827-1015).
jsonDecode models the toolkit WXJSON_Decode (none = the WXJSONVALUE_ERROR
parse-failure result, which is non-fatal: the frame is dropped with a
warning and reading continues).  msgLen + 4 is computed in uint32
arithmetic, hence the mod 2^32.  Fuel: each continuing iteration consumes
at least 4 buffered bytes. -/
def parseInboundLoop (jsonDecode : List Nat → Option WXJSONValue)
    (cb : CbArg → CbR) (f : Filters) : Nat → PIMState → PIMOut
  | 0, st => ⟨.ignore, st.buffer, st.warns, st.cbCalls⟩
  | fuel+1, st =>
    if 4 ≤ st.buffer.length then
      let msgLen := be32 st.buffer 0
      let msgLimit := (msgLen + 4) % 2 ^ 32
      if st.buffer.length < msgLimit then ⟨.ignore, st.buffer, st.warns, st.cbCalls⟩
      else
        match decodeFrame st.buffer msgLimit st.content st.fragLenCarry with
        | .bad => msgErrorExit st msgLen msgLimit
        | .good isSS isPR nsVal ct cpos clen flc =>
          let consumed := consumeBuffer st.buffer msgLimit
          if frameMatched f isSS isPR nsVal ct then
            if ct = 0 then
              match jsonDecode (bytesAt st.buffer cpos clen) with
              | none =>
                -- invalid JSON content: warn, drop the frame, keep reading
                parseInboundLoop jsonDecode cb f fuel
                  ⟨consumed, some (cpos, clen), flc, st.warns + 1, st.cbCalls⟩
              | some v =>
                match cb (.jsonContent v) with
                | .ignore =>
                  parseInboundLoop jsonDecode cb f fuel
                    ⟨consumed, some (cpos, clen), flc, st.warns, st.cbCalls + 1⟩
                | r => ⟨r, consumed, st.warns, st.cbCalls + 1⟩
            else
              match cb (.binContent (bytesAt st.buffer cpos clen) clen) with
              | .ignore =>
                parseInboundLoop jsonDecode cb f fuel
                  ⟨consumed, some (cpos, clen), flc, st.warns, st.cbCalls + 1⟩
              | r => ⟨r, consumed, st.warns, st.cbCalls + 1⟩
          else
            -- failed the filters: discarded silently, keep reading
            parseInboundLoop jsonDecode cb f fuel
              ⟨consumed, some (cpos, clen), flc, st.warns, st.cbCalls⟩
    else ⟨.ignore, st.buffer, st.warns, st.cbCalls⟩

def parseInboundMessages (jsonDecode : List Nat → Option WXJSONValue)
    (cb : CbArg → CbR) (f : Filters) (buffer : List Nat) : PIMOut :=
  parseInboundLoop jsonDecode cb f (buffer.length + 1) ⟨buffer, none, 0, 0, 0⟩

/-! ### Application availability exchange (castptl_app.c) at the JSON level -/

/-- WXHash_GetEntry on a decoded JSON object (string-keyed lookup; the
toolkit hash keeps one value per key).  On a non-object value the C would
read garbage; every such call site is guarded by the object having been
produced by the JSON decoder, and lookup on a non-object yields none. -/
def jsonGet : WXJSONValue → String → Option WXJSONValue
  | .jobj entries, key => lookupEntries entries key
  | _, _ => none
where
  lookupEntries : List (String × WXJSONValue) → String → Option WXJSONValue
    | [], _ => none
    | (k, v) :: rest, key => if k = key then some v else lookupEntries rest key

/-- parseAvailabilityResponse (castptl_app.c lines 71-111): validates
responseType, extracts availability[applicationId], and returns the
available / unavailable marker or CPTL_RESP_ERROR. -/
def parseAvailabilityResponse (appId : String) (v : WXJSONValue) : CbR :=
  match jsonGet v "responseType" with
  | some (.jstr s) =>
    if s ≠ "GET_APP_AVAILABILITY" then .err
    else
      match jsonGet v "availability" with
      | some (.jobj entries) =>
        match jsonGet (.jobj entries) appId with
        | some (.jstr st) =>
          if st = "APP_AVAILABLE" then .value "APP_AVAILABLE"
          else if st = "APP_UNAVAILABLE" then .value "APP_UNAVAILABLE"
          else .err
        | _ => .err
      | _ => .err
  | _ => .err

/-- Modelled from the spec: the requestId matching of castReceiveMessage.
The prototype in php_castptl.h declares the requestId parameter ("if
greater than zero, match against the provided request identifier, ignored
if the response is not JSON") and castptl_app.c passes it, but the
castptl_message.c body in src predates that parameter, so the filter is
modelled from the spec: a JSON response whose requestId field differs is
not delivered to the callback. -/
def requestIdMatches (reqId : Int) (v : WXJSONValue) : Bool :=
  if 0 < reqId then
    match jsonGet v "requestId" with
    | some (.jint n) => n == reqId
    | _ => false
  else true

/-- Modelled from the spec: the receive loop of castReceiveMessage at the
level of already-decoded JSON responses.  Non-matching responses are
skipped; a callback NULL keeps reading; CPTL_RESP_ERROR makes
castReceiveMessage return NULL (none); any other value is returned.  The
empty list is the timeout case (none). -/
def castReceiveJson (reqId : Int) (cb : WXJSONValue → CbR) :
    List WXJSONValue → Option CbR
  | [] => none
  | v :: rest =>
    if requestIdMatches reqId v then
      match cb v with
      | .ignore => castReceiveJson reqId cb rest
      | .err => none
      | r => some r
    else castReceiveJson reqId cb rest

inductive AvailWarning
  | warnNoResponse
  | warnUnavailable
deriving Repr, DecidableEq

/-- castAppCheckAvailability (castptl_app.c lines 121-165), given the
request id it sent and the JSON responses the device delivers: 0 on
available, otherwise -1 with the warning the C logs (the pointer
comparisons against the _appIsAvail / _appNotAvail markers). -/
def castAppCheckAvailability (appId : String) (reqId : Int)
    (frames : List WXJSONValue) : Int × List AvailWarning :=
  match castReceiveJson reqId (parseAvailabilityResponse appId) frames with
  | some (.value s) =>
    if s = "APP_AVAILABLE" then (0, [])
    else if s = "APP_UNAVAILABLE" then (-1, [.warnUnavailable])
    else (-1, [.warnNoResponse])
  | _ => (-1, [.warnNoResponse])

/-! ### Per-connection requestId counter (php_castptl.h CastDeviceConnection,
castptl_app.c line 130) -/

def INT32_MIN : Int := -(2 ^ 31)
def INT32_MAX : Int := 2 ^ 31 - 1

/-- Two's-complement wrap of the int32_t increment (the C increment of an
int32_t; overflow is undefined behaviour in C, modelled as wraparound). -/
def int32Wrap (x : Int) : Int := (x + 2 ^ 31) % 2 ^ 32 - 2 ^ 31

/-- Connection operations that touch the channel.  castDeviceConnect
initializes requestId to 0; castDevicePing never assigns a request id
(it passes -1 to the receive); castAppCheckAvailability executes
requestId = ++(conn->requestId) just before sending. -/
inductive ConnOp
  | ping
  | appAvail
deriving Repr, DecidableEq

/-- Effect of one operation on conn->requestId, plus the id it assigns to
the outgoing request, if any. -/
def opStep : ConnOp → Int → Int × Option Int
  | .ping, r => (r, none)
  | .appAvail, r => (int32Wrap (r + 1), some (int32Wrap (r + 1)))

/-- Run a sequence of operations: final counter and assigned ids in order. -/
def runConn : List ConnOp → Int → Int × List Int
  | [], r => (r, [])
  | op :: rest, r =>
    let st := opStep op r
    let tail := runConn rest st.1
    (tail.1, st.2.toList ++ tail.2)

/-! ### Concrete inputs used by the theorems below -/

/-- A six-byte datagram whose name starts with a compression pointer to
offset 2; the label there is followed by a pointer back to offset 2, so
the C parseQName loop revisits ptr position 4 forever (offset is frozen at
2 once redirect is set, and 2 < 6 keeps the loop condition true). -/
def qnameCycleInput : List Nat := [0xC0, 0x02, 0x01, 0x61, 0xC0, 0x02]

/-- A name consisting of one redirect: position 3 holds a compression pointer
(0xC0 0x00) to the inline name "a" stored at position 0. -/
def qnamePtrInput : List Nat := [1, 0x61, 0, 0xC0, 0x00, 0, 0]

/-- A DNS-style encoding of a label sequence: length byte then bytes per
label, closed by a zero byte. -/
def encodeName (labels : List (List Nat)) : List Nat :=
  labels.flatMap (fun l => l.length :: l) ++ [0]

/-- A well-formed Cast frame with binary payload: version 0, source
receiver-0, destination sender-0, heartbeat namespace, payload_type 1,
one payload byte. -/
def binFrameBody : List Nat :=
  [0x08, 0x00] ++ [0x12, 10] ++ strBytes "receiver-0" ++
  [0x1A, 8] ++ strBytes "sender-0" ++
  [0x22, 39] ++ strBytes "urn:x-cast:com.google.cast.tp.heartbeat" ++
  [0x28, 0x01] ++ [0x3A, 1, 0xAB]

def binFrame : List Nat := [0, 0, 0, 70] ++ binFrameBody

/-- A frame whose single field uses wire type 3 (a group): msg_error. -/
def groupFrame : List Nat := [0, 0, 0, 2, 0x33, 0x00]

/-- Callback that accepts any binary content with the marker M. -/
def cbBinMarker : CbArg → CbR
  | .binContent _ _ => .value "M"
  | _ => .ignore

/-- Callback that accepts anything with the marker V. -/
def cbAnyMarker : CbArg → CbR := fun _ => .value "V"

/-- JSON decoder stub used where no JSON path is exercised. -/
def jdNone : List Nat → Option WXJSONValue := fun _ => none

/-- JSON decoder that decodes every payload to the PONG object. -/
def jdPong : List Nat → Option WXJSONValue :=
  fun _ => some (.jobj [("type", .jstr "PONG")])

/-- The canned availability response JSON (castptl_app.c _appAvailResp
payload). -/
def availRespJson : WXJSONValue :=
  .jobj [("availability", .jobj [("02834648", .jstr "APP_AVAILABLE")]),
         ("requestId", .jint 1),
         ("responseType", .jstr "GET_APP_AVAILABILITY")]

/-- The canned unavailability response JSON (_appUnavailResp payload). -/
def unavailRespJson : WXJSONValue :=
  .jobj [("availability", .jobj [("02834648", .jstr "APP_UNAVAILABLE")]),
         ("requestId", .jint 1),
         ("responseType", .jstr "GET_APP_AVAILABILITY")]

def devRecordOne : CastDeviceInfo :=
  ⟨"63970hbc22h26b6b2a0492825db8d2f4", "Den TV", "Chromecast", "10.11.12.13", 8009⟩

def devRecordTwo : CastDeviceInfo :=
  ⟨"6b0h3b26023d232e072a2be28a24b7b7", "TST Chrome Panel", "Chromecast Ultra",
   "2016:cd8:4567:2cd0::12", 8009⟩

/-- Eight buffered bytes whose 32-bit length prefix is 0xFFFFFFFF. -/
def hugePrefixBuffer : List Nat := [0xFF, 0xFF, 0xFF, 0xFF, 0, 0, 0, 0]

/-! ## Theorems -/

set_option maxRecDepth 40000 in
/-- The canned IPv4 test datagram decodes to the first expected record. -/
theorem cannedOne_parses :
    parseDiscoverResponse (cannedSrc 1) (cannedResp 1) = .emit devRecordOne := by decide

set_option maxRecDepth 40000 in
/-- The canned IPv6 test datagram decodes to the second expected record. -/
theorem cannedTwo_parses :
    parseDiscoverResponse (cannedSrc 2) (cannedResp 2) = .emit devRecordTwo := by decide

/-- C1: while the test flag is set (TestCtl(1)) and ipMode covers both
address families, Discover returns exactly two device records: the decoded
canned IPv4 record (id 63970hbc22h26b6b2a0492825db8d2f4, name Den TV,
model Chromecast, ipAddr 10.11.12.13, port 8009) followed by the decoded
canned IPv6 record (id 6b0h3b26023d232e072a2be28a24b7b7, name TST Chrome
Panel, model Chromecast Ultra, ipAddr 2016:cd8:4567:2cd0::12, port 8009),
for every wait time and every environment in which both family sockets set
up successfully. -/
theorem discover_testmode_two_records (env1 env2 : FamilyEnv) (waitTm : Int)
    (h1 : env1.setupOk = true) (h2 : env2.setupOk = true) :
    (castDiscover true 3 waitTm env1 env2).1 = [devRecordOne, devRecordTwo] := by
  simp [castDiscover, discoverFamily, h1, h2, cannedOne_parses, cannedTwo_parses]

/-- Witness for C1 at a concrete environment. -/
theorem discover_testmode_two_records_witness :
    (FamilyEnv.mk true []).setupOk = true ∧
    (castDiscover true 3 0 ⟨true, []⟩ ⟨true, []⟩).1 = [devRecordOne, devRecordTwo] :=
  ⟨rfl, discover_testmode_two_records ⟨true, []⟩ ⟨true, []⟩ 0 rfl rfl⟩

/-- parseQNameStep treats the accumulated fragment list opaquely: a
continuing step that appends some fragments does so for every initial
fragment list. -/
theorem parseQNameStep_frags_inr (buf : List Nat) (pos off limit : Nat) (r : Bool)
    (ll : Option Nat) (f g add : List (List Nat)) (p2 o2 l2 : Nat) (r2 : Bool)
    (ll2 : Option Nat)
    (h : parseQNameStep buf ⟨pos, off, limit, r, f, ll⟩ = .inr ⟨p2, o2, l2, r2, f ++ add, ll2⟩) :
    parseQNameStep buf ⟨pos, off, limit, r, g, ll⟩ = .inr ⟨p2, o2, l2, r2, g ++ add, ll2⟩ := by
  unfold parseQNameStep at h ⊢
  dsimp only at h ⊢
  split_ifs at h ⊢ <;> simp_all

set_option maxRecDepth 8000 in
/-- C2 (code bug): mDNS name decoding does not terminate for every input.
On qnameCycleInput the parseQName while loop runs forever: after the
compression redirect the outer offset is frozen at 2 (below the limit 6,
so the loop condition stays true), and the label-then-pointer cycle brings
ptr back to position 4 with a nonzero slen on every iteration.  No amount
of fuel makes the transliterated loop exit. -/
theorem parseQName_cycle_nonterminating (fuel : Nat) :
    parseQNameLoop qnameCycleInput fuel
      ⟨0, 0, qnameCycleInput.length, false, [], none⟩ = none := by
  have hs1 : parseQNameStep qnameCycleInput ⟨0, 0, qnameCycleInput.length, false, [], none⟩ =
      .inr ⟨4, 2, 6, true, [[0x61]], some 1⟩ := rfl
  have hs2c : parseQNameStep qnameCycleInput ⟨4, 2, 6, true, [], some 1⟩ =
      .inr ⟨4, 2, 6, true, [] ++ [[0x61]], some 1⟩ := rfl
  have hs2 : ∀ frags, parseQNameStep qnameCycleInput ⟨4, 2, 6, true, frags, some 1⟩ =
      .inr ⟨4, 2, 6, true, frags ++ [[0x61]], some 1⟩ :=
    fun frags => parseQNameStep_frags_inr _ _ _ _ _ _ _ frags _ _ _ _ _ _ hs2c
  have key : ∀ n frags,
      parseQNameLoop qnameCycleInput n ⟨4, 2, 6, true, frags, some 1⟩ = none := by
    intro n
    induction n with
    | zero => intro frags; rfl
    | succ m ih =>
      intro frags
      rw [parseQNameLoop, hs2 frags]
      exact ih (frags ++ [[0x61]])
  cases fuel with
  | zero => rfl
  | succ m =>
    rw [parseQNameLoop, hs1]
    exact key m _

/-- C4 (code bug): the forSenderSession filter is inverted.  With the
filter true, the well-formed binFrame — whose destination_id is the global
sender-0, hence not the session sender — passes the filter and is handed
to the callback; frameMatched shows that with the filter true a global
destination (isSenderSession = 0) passes while a session destination
(isSenderSession = 1) is rejected, and that the filter-false half of the
claim does hold for a global destination. -/
theorem forSenderSession_filter_inverted :
    parseInboundMessages jdNone cbBinMarker ⟨1, -1, -1, -1⟩ binFrame =
      ⟨.value "M", [], 0, 1⟩ ∧
    frameMatched ⟨1, -1, -1, -1⟩ 0 0 NS_HEARTBEAT 1 = true ∧
    frameMatched ⟨1, -1, -1, -1⟩ 1 0 NS_HEARTBEAT 1 = false ∧
    frameMatched ⟨0, -1, -1, -1⟩ 0 0 NS_HEARTBEAT 1 = true := by
  refine ⟨by decide, by decide, by decide, by decide⟩

/-- C9: Discover with ipMode 0 returns an empty result and performs no
network action at all, for every wait time, test flag and environment. -/
theorem discover_ipmode_zero_no_io (tstMode : Bool) (waitTm : Int)
    (env1 env2 : FamilyEnv) :
    castDiscover tstMode 0 waitTm env1 env2 = ([], []) := rfl

set_option maxRecDepth 40000 in
/-- C5 counterexample: the claim that after a validation failure parsing
resumes with following frame bytes is false.  With the invalid groupFrame
followed by the valid, filter-matching pong frame, the decoder discards
the bad frame but returns CPTL_RESP_ERROR immediately: the pong frame is
left unparsed in the buffer and the callback is never invoked — although
the same pong frame alone is matched and returned. -/
theorem frame_error_no_resume_counterexample :
    parseInboundMessages jdPong cbAnyMarker ⟨-1, -1, -1, -1⟩ (groupFrame ++ tstPongResp) =
      ⟨.err, tstPongResp, 1, 0⟩ ∧
    parseInboundMessages jdPong cbAnyMarker ⟨-1, -1, -1, -1⟩ tstPongResp =
      ⟨.value "V", [], 0, 1⟩ ∧
    (⟨.err, tstPongResp, 1, 0⟩ : PIMOut) ≠ ⟨.value "V", [], 0, 1⟩ :=
  ⟨by decide, by decide, by decide⟩

/-- C5 (amended): whenever the first buffered frame is complete and its
fields fail decoding or validation (group wire type, unknown tag index,
protocol_version not 0, unknown namespace, unclassifiable endpoint ids,
bad payload_type, missing payload, or a non-exact fit), the decoder emits
one warning, discards that frame (length prefix plus body) from the
rolling buffer when its length prefix is nonzero, and returns the error
sentinel without invoking the callback or parsing any following frame. -/
theorem frame_validation_failure_aborts (jsonDecode : List Nat → Option WXJSONValue)
    (cb : CbArg → CbR) (f : Filters) (buffer : List Nat)
    (h4 : 4 ≤ buffer.length)
    (hfit : (be32 buffer 0 + 4) % 2 ^ 32 ≤ buffer.length)
    (hbad : decodeFrame buffer ((be32 buffer 0 + 4) % 2 ^ 32) none 0 = .bad) :
    parseInboundMessages jsonDecode cb f buffer =
      ⟨.err,
       if be32 buffer 0 ≠ 0 then consumeBuffer buffer ((be32 buffer 0 + 4) % 2 ^ 32)
       else buffer,
       1, 0⟩ := by
  unfold parseInboundMessages
  rw [parseInboundLoop]
  dsimp only
  rw [if_pos h4, if_neg (by omega : ¬ buffer.length < (be32 buffer 0 + 4) % 2 ^ 32), hbad]
  simp [msgErrorExit]

/-- Witness for C5 at the concrete group-wire-type frame. -/
theorem frame_validation_failure_aborts_witness :
    4 ≤ groupFrame.length ∧
    (be32 groupFrame 0 + 4) % 2 ^ 32 ≤ groupFrame.length ∧
    decodeFrame groupFrame ((be32 groupFrame 0 + 4) % 2 ^ 32) none 0 = .bad ∧
    parseInboundMessages jdNone cbAnyMarker ⟨-1, -1, -1, -1⟩ groupFrame =
      ⟨.err, [], 1, 0⟩ :=
  ⟨by decide, by decide, by decide,
   (frame_validation_failure_aborts jdNone cbAnyMarker ⟨-1, -1, -1, -1⟩ groupFrame
     (by decide) (by decide) (by decide)).trans (by decide)⟩

/-- C6 counterexample: a length prefix of 0xFFFFFFFF is larger than the
four remaining buffered bytes, yet the decoder does not leave the buffer
unchanged: msgLen + 4 wraps to 3 in uint32 arithmetic, the frame is
declared malformed, and three bytes of the buffer are consumed. -/
theorem length_prefix_wrap_counterexample :
    be32 hugePrefixBuffer 0 = 4294967295 ∧
    hugePrefixBuffer.length = 8 ∧
    parseInboundMessages jdNone cbAnyMarker ⟨-1, -1, -1, -1⟩ hugePrefixBuffer =
      ⟨.err, [0xFF, 0, 0, 0, 0], 1, 0⟩ ∧
    ([0xFF, 0, 0, 0, 0] : List Nat) ≠ hugePrefixBuffer :=
  ⟨by decide, by decide, by decide, by decide⟩

/-- C6 (amended): when the next frame's 32-bit length prefix msgLen is
larger than the buffered remainder and small enough that msgLen + 4 does
not wrap in uint32 arithmetic (msgLen at most 0xFFFFFFFB), the decoder
consumes nothing: it returns NULL with the buffer contents and length
unchanged, no warning and no callback, so decoding can resume when more
bytes arrive. -/
theorem short_frame_leaves_buffer (jsonDecode : List Nat → Option WXJSONValue)
    (cb : CbArg → CbR) (f : Filters) (buffer : List Nat)
    (h4 : 4 ≤ buffer.length)
    (hsz : be32 buffer 0 ≤ 0xFFFFFFFB)
    (hshort : buffer.length < be32 buffer 0 + 4) :
    parseInboundMessages jsonDecode cb f buffer = ⟨.ignore, buffer, 0, 0⟩ := by
  unfold parseInboundMessages
  rw [parseInboundLoop]
  dsimp only
  have hmod : (be32 buffer 0 + 4) % 2 ^ 32 = be32 buffer 0 + 4 :=
    Nat.mod_eq_of_lt (by omega)
  rw [if_pos h4, hmod, if_pos hshort]

/-- Witness for C6 at a concrete three-byte-short frame. -/
theorem short_frame_leaves_buffer_witness :
    4 ≤ ([0, 0, 0, 10, 1, 2, 3] : List Nat).length ∧
    be32 [0, 0, 0, 10, 1, 2, 3] 0 ≤ 0xFFFFFFFB ∧
    ([0, 0, 0, 10, 1, 2, 3] : List Nat).length < be32 [0, 0, 0, 10, 1, 2, 3] 0 + 4 ∧
    parseInboundMessages jdNone cbAnyMarker ⟨-1, -1, -1, -1⟩ [0, 0, 0, 10, 1, 2, 3] =
      ⟨.ignore, [0, 0, 0, 10, 1, 2, 3], 0, 0⟩ :=
  ⟨by decide, by decide, by decide,
   short_frame_leaves_buffer jdNone cbAnyMarker ⟨-1, -1, -1, -1⟩ _
     (by decide) (by decide) (by decide)⟩

/-- The availability callback accepts a response as available exactly when
responseType and availability[appId] have the required values. -/
theorem parseAvail_avail_iff (appId : String) (v : WXJSONValue) :
    parseAvailabilityResponse appId v = .value "APP_AVAILABLE" ↔
      jsonGet v "responseType" = some (.jstr "GET_APP_AVAILABILITY") ∧
      (jsonGet v "availability").bind (fun a => jsonGet a appId) =
        some (.jstr "APP_AVAILABLE") := by
  unfold parseAvailabilityResponse
  cases h1 : jsonGet v "responseType" with
  | none => simp
  | some rv =>
    cases rv with
    | jnull => simp
    | jbool b => simp
    | jint n => simp
    | jarr l => simp
    | jobj e0 => simp
    | jstr s =>
      by_cases hs : s = "GET_APP_AVAILABILITY"
      · subst hs
        dsimp only
        rw [if_neg (by simp)]
        simp only [Option.some.injEq, WXJSONValue.jstr.injEq, true_and]
        cases h2 : jsonGet v "availability" with
        | none => simp
        | some av =>
          cases av with
          | jnull => simp [jsonGet]
          | jbool b => simp [jsonGet]
          | jint n => simp [jsonGet]
          | jstr s2 => simp [jsonGet]
          | jarr l => simp [jsonGet]
          | jobj entries =>
            cases h3 : jsonGet (.jobj entries) appId with
            | none => simp [h3]
            | some sv =>
              cases sv with
              | jnull => simp [h3]
              | jbool b => simp [h3]
              | jint n => simp [h3]
              | jarr l => simp [h3]
              | jobj e2 => simp [h3]
              | jstr stv =>
                by_cases hst : stv = "APP_AVAILABLE"
                · simp [hst, h3]
                · by_cases hst2 : stv = "APP_UNAVAILABLE" <;> simp [hst, hst2, h3]
      · simp [hs]



/-- The availability callback reports the unavailable marker for a
well-formed response carrying APP_UNAVAILABLE. -/
theorem parseAvail_unavail_of (appId : String) (v : WXJSONValue)
    (h1 : jsonGet v "responseType" = some (.jstr "GET_APP_AVAILABILITY"))
    (h2 : (jsonGet v "availability").bind (fun a => jsonGet a appId) =
      some (.jstr "APP_UNAVAILABLE")) :
    parseAvailabilityResponse appId v = .value "APP_UNAVAILABLE" := by
  unfold parseAvailabilityResponse
  rw [h1]
  dsimp only
  rw [if_neg (by simp)]
  rcases h2' : jsonGet v "availability" with _ | av
  · rw [h2'] at h2; simp at h2
  · rw [h2'] at h2
    cases av with
    | jnull => simp [jsonGet] at h2
    | jbool b => simp [jsonGet] at h2
    | jint n => simp [jsonGet] at h2
    | jstr s2 => simp [jsonGet] at h2
    | jarr l => simp [jsonGet] at h2
    | jobj entries =>
      simp only [Option.some_bind] at h2
      dsimp only
      rw [h2]
      dsimp only
      rw [if_neg (by simp), if_pos rfl]

/-- The availability callback only ever produces the error sentinel or one
of the two marker values. -/
theorem parseAvail_cases (appId : String) (v : WXJSONValue) :
    parseAvailabilityResponse appId v = .err ∨
    parseAvailabilityResponse appId v = .value "APP_AVAILABLE" ∨
    parseAvailabilityResponse appId v = .value "APP_UNAVAILABLE" := by
  unfold parseAvailabilityResponse
  repeat' split
  all_goals simp

/-- C7: the GET_APP_AVAILABILITY exchange with a positive request id
succeeds (returns 0) for a delivered JSON response exactly when the
response passes the requestId match and has
responseType = GET_APP_AVAILABILITY and
availability[applicationId] = APP_AVAILABLE; and when the matching,
well-typed response instead carries APP_UNAVAILABLE the exchange fails
with the target-application-not-available warning. -/
theorem appAvailability_exchange (appId : String) (reqId : Int) (v : WXJSONValue)
    (hpos : 0 < reqId) :
    ((castAppCheckAvailability appId reqId [v]).1 = 0 ↔
      requestIdMatches reqId v = true ∧
      jsonGet v "responseType" = some (.jstr "GET_APP_AVAILABILITY") ∧
      (jsonGet v "availability").bind (fun a => jsonGet a appId) =
        some (.jstr "APP_AVAILABLE")) ∧
    (requestIdMatches reqId v = true →
      jsonGet v "responseType" = some (.jstr "GET_APP_AVAILABILITY") →
      (jsonGet v "availability").bind (fun a => jsonGet a appId) =
        some (.jstr "APP_UNAVAILABLE") →
      castAppCheckAvailability appId reqId [v] = (-1, [.warnUnavailable])) := by
  constructor
  · by_cases hm : requestIdMatches reqId v = true
    · unfold castAppCheckAvailability castReceiveJson
      rw [if_pos hm]
      cases hp : parseAvailabilityResponse appId v with
      | ignore =>
        dsimp only
        simp only [castReceiveJson]
        constructor
        · intro h; simp at h
        · rintro ⟨-, hr1, hr2⟩
          have := (parseAvail_avail_iff appId v).mpr ⟨hr1, hr2⟩
          rw [hp] at this; cases this
      | err =>
        dsimp only
        constructor
        · intro h; simp at h
        · rintro ⟨-, hr1, hr2⟩
          have := (parseAvail_avail_iff appId v).mpr ⟨hr1, hr2⟩
          rw [hp] at this; cases this
      | value s =>
        dsimp only
        by_cases hsA : s = "APP_AVAILABLE"
        · subst hsA
          rw [if_pos rfl]
          constructor
          · intro _; exact ⟨hm, (parseAvail_avail_iff appId v).mp hp⟩
          · intro _; rfl
        · by_cases hsU : s = "APP_UNAVAILABLE"
          · subst hsU
            rw [if_neg (by simp), if_pos rfl]
            constructor
            · intro h; simp at h
            · rintro ⟨-, hr1, hr2⟩
              have := (parseAvail_avail_iff appId v).mpr ⟨hr1, hr2⟩
              rw [hp] at this
              simp at this
          · rcases parseAvail_cases appId v with hc | hc | hc <;> rw [hp] at hc <;>
              simp_all
    · have hm' : requestIdMatches reqId v = false := by
        cases h : requestIdMatches reqId v with
        | true => exact absurd h hm
        | false => rfl
      unfold castAppCheckAvailability castReceiveJson
      rw [if_neg (by simp [hm'])]
      simp [castReceiveJson, hm']
  · intro hm h1 h2
    have hp := parseAvail_unavail_of appId v h1 h2
    unfold castAppCheckAvailability castReceiveJson
    rw [if_pos hm, hp]
    dsimp only
    rw [if_neg (by simp), if_pos rfl]

/-- Witness for C7 at the canned available response with request id 1. -/
theorem appAvailability_exchange_witness :
    (0 : Int) < 1 ∧
    (castAppCheckAvailability "02834648" 1 [availRespJson]).1 = 0 ∧
    castAppCheckAvailability "02834648" 1 [unavailRespJson] = (-1, [.warnUnavailable]) :=
  ⟨by decide,
   (appAvailability_exchange "02834648" 1 availRespJson (by decide)).1.mpr
     ⟨rfl, rfl, rfl⟩,
   (appAvailability_exchange "02834648" 1 unavailRespJson (by decide)).2 rfl rfl rfl⟩

/-- int32 increment without overflow is the integer increment. -/
theorem int32Wrap_eq (x : Int) (h1 : INT32_MIN ≤ x) (h2 : x ≤ INT32_MAX) :
    int32Wrap x = x := by
  unfold INT32_MIN at h1
  unfold INT32_MAX at h2
  unfold int32Wrap
  rw [Int.emod_eq_of_lt (by omega) (by omega)]
  omega

/-- C8: over any sequence of connection operations that stays below the
int32 maximum, the stored requestId grows by exactly one per assigning
operation, every assigned request id exceeds the initial counter, and the
assigned ids are strictly increasing (never decreased, never reused). -/
theorem requestId_monotone (ops : List ConnOp) (r0 : Int)
    (hlo : INT32_MIN ≤ r0)
    (hhi : r0 + ((ops.filter (fun o => o == ConnOp.appAvail)).length : Int) ≤ INT32_MAX) :
    (runConn ops r0).1 = r0 + ((ops.filter (fun o => o == ConnOp.appAvail)).length : Int) ∧
    (∀ x ∈ (runConn ops r0).2, r0 < x) ∧
    List.Pairwise (· < ·) (runConn ops r0).2 := by
  induction ops generalizing r0 with
  | nil => simp [runConn]
  | cons op rest ih =>
    cases op with
    | ping =>
      have hrw : runConn (ConnOp.ping :: rest) r0 = runConn rest r0 := by
        simp [runConn, opStep]
      have hcnt : (ConnOp.ping :: rest).filter (fun o => o == ConnOp.appAvail) =
          rest.filter (fun o => o == ConnOp.appAvail) := rfl
      rw [hcnt] at hhi
      rw [hrw, hcnt]
      exact ih r0 hlo hhi
    | appAvail =>
      have hlo1 : INT32_MIN ≤ r0 + 1 := by unfold INT32_MIN at hlo ⊢; omega
      have hcnt : ((ConnOp.appAvail :: rest).filter (fun o => o == ConnOp.appAvail)).length =
          (rest.filter (fun o => o == ConnOp.appAvail)).length + 1 := rfl
      rw [hcnt] at hhi ⊢
      have hhi1 : (r0 + 1) + ((rest.filter (fun o => o == ConnOp.appAvail)).length : Int) ≤
          INT32_MAX := by push_cast at hhi ⊢; omega
      have hw : int32Wrap (r0 + 1) = r0 + 1 :=
        int32Wrap_eq _ hlo1 (by
          have hc : (0 : Int) ≤ ((rest.filter (fun o => o == ConnOp.appAvail)).length : Int) :=
            Int.natCast_nonneg _
          unfold INT32_MAX at hhi1 ⊢
          omega)
      have hrw : runConn (ConnOp.appAvail :: rest) r0 =
          ((runConn rest (r0 + 1)).1, (r0 + 1) :: (runConn rest (r0 + 1)).2) := by
        simp [runConn, opStep, hw]
      obtain ⟨ih1, ih2, ih3⟩ := ih (r0 + 1) hlo1 hhi1
      rw [hrw]
      refine ⟨?_, ?_, ?_⟩
      · dsimp only
        rw [ih1]
        push_cast
        ring
      · intro x hx
        rcases List.mem_cons.mp hx with rfl | hx'
        · omega
        · have := ih2 x hx'; omega
      · exact List.pairwise_cons.mpr ⟨fun x hx => by have := ih2 x hx; omega, ih3⟩

/-- Witness for C8 on a concrete operation sequence. -/
theorem requestId_monotone_witness :
    INT32_MIN ≤ (0 : Int) ∧
    (0 : Int) + (([ConnOp.appAvail, ConnOp.ping, ConnOp.appAvail].filter
        (fun o => o == ConnOp.appAvail)).length : Int) ≤ INT32_MAX ∧
    List.Pairwise (· < ·) (runConn [ConnOp.appAvail, ConnOp.ping, ConnOp.appAvail] 0).2 ∧
    (runConn [ConnOp.appAvail, ConnOp.ping, ConnOp.appAvail] 0).1 = 2 :=
  ⟨by decide, by decide,
   (requestId_monotone [ConnOp.appAvail, ConnOp.ping, ConnOp.appAvail] 0
     (by decide) (by decide)).2.2,
   ((requestId_monotone [ConnOp.appAvail, ConnOp.ping, ConnOp.appAvail] 0
     (by decide) (by decide)).1).trans (by decide)⟩


/-- The TXT-record loop only ever rewrites `name`; `ipAddr` is untouched. -/
theorem txtLoop_ipAddr (buf : List Nat) :
    ∀ (fuel : Nat) (wrk : CastDeviceInfo) (pos off resid : Nat) (scr : List Nat),
      (txtLoop buf fuel wrk pos off resid scr).wrk.ipAddr = wrk.ipAddr := by
  intro fuel
  induction fuel with
  | zero => intro wrk pos off resid scr; rfl
  | succ n ih =>
    intro wrk pos off resid scr
    rw [txtLoop]
    dsimp only
    split_ifs <;> first
      | rfl
      | rw [ih]

/-- No additional-record branch writes `ipAddr`: A/AAAA data goes to scratch,
TXT rewrites `name`, SRV rewrites `port`. -/
theorem applyAdditionalRecord_ipAddr (buf : List Nat) (wrk : CastDeviceInfo)
    (off rType rLen : Nat) (scr : List Nat) :
    (applyAdditionalRecord buf wrk off rType rLen scr).1.ipAddr = wrk.ipAddr := by
  unfold applyAdditionalRecord
  split_ifs <;> first
    | rfl
    | exact txtLoop_ipAddr buf (rLen + 1) wrk off off rLen scr

/-- The additional-record loop preserves `ipAddr` of the working record. -/
theorem addLoop_ipAddr (buf : List Nat) :
    ∀ (n : Nat) (wrk : CastDeviceInfo) (off : Nat) (scr : List Nat)
      (w : CastDeviceInfo) (o : Nat) (s : List Nat),
      addLoop buf n wrk off scr = some (w, o, s) → w.ipAddr = wrk.ipAddr := by
  intro n
  induction n with
  | zero =>
    intro wrk off scr w o s h
    rw [addLoop] at h
    simp only [Option.some.injEq, Prod.mk.injEq] at h
    rw [← h.1]
  | succ m ih =>
    intro wrk off scr w o s h
    rw [addLoop] at h
    dsimp only at h
    split at h
    · exact Option.noConfusion h
    · split at h
      · exact Option.noConfusion h
      · have hrec := ih _ _ _ _ _ _ h
        rw [hrec, applyAdditionalRecord_ipAddr]

/-- Every emitted discovery record carries the datagram source address. -/
theorem parseDiscoverResponse_ipAddr (src : String) (resp : List Nat)
    (r : CastDeviceInfo) (h : parseDiscoverResponse src resp = .emit r) :
    r.ipAddr = src := by
  unfold parseDiscoverResponse at h
  repeat' first
    | exact DatagramOutcome.noConfusion h
    | split at h
    | dsimp only at h
  rename_i w o2 s2 heq
  injection h with h
  subst h
  rw [addLoop_ipAddr resp _ _ _ _ _ _ _ heq]
  split <;> rfl

/-- C10: the content of an A (type 1) or AAAA (type 28) additional record never
affects the emitted device record. Whenever `parseDiscoverResponse` emits a
record, its `ipAddr` field is exactly the datagram's source-address string that
was formatted before parsing began; and an A/AAAA additional record leaves the
working device record completely unchanged, advancing the read offset past the
record data and writing only the scratch buffer. -/
theorem a_aaaa_records_do_not_affect_record (src : String) (resp : List Nat)
    (r : CastDeviceInfo) (h : parseDiscoverResponse src resp = .emit r) :
    r.ipAddr = src ∧
    ∀ (buf : List Nat) (wrk : CastDeviceInfo) (off rType rLen : Nat) (scr : List Nat),
      rType = 1 ∨ rType = 28 →
      (applyAdditionalRecord buf wrk off rType rLen scr).1 = wrk ∧
      (applyAdditionalRecord buf wrk off rType rLen scr).2.1 = off + rLen := by
  refine ⟨parseDiscoverResponse_ipAddr src resp r h, ?_⟩
  rintro buf wrk off rType rLen scr (rfl | rfl) <;> exact ⟨rfl, rfl⟩

/-- Witness for C10: the canned IPv4 test datagram emits a record whose
`ipAddr` is the canned source address, and a concrete A record instance leaves
the working record unchanged. -/
theorem a_aaaa_records_do_not_affect_record_witness :
    devRecordOne.ipAddr = cannedSrc 1 ∧
    (applyAdditionalRecord tstRespOne devRecordOne 348 1 4 []).1 = devRecordOne := by
  have hmain := a_aaaa_records_do_not_affect_record (cannedSrc 1) (cannedResp 1)
    devRecordOne cannedOne_parses
  exact ⟨hmain.1, (hmain.2 tstRespOne devRecordOne 348 1 4 [] (Or.inl rfl)).1⟩


/-- Reading n+1 bytes is the first byte followed by the next n. -/
theorem bytesAt_succ (buf : List Nat) (i : Nat) :
    ∀ n, bytesAt buf i (n + 1) = byteAt buf i :: bytesAt buf (i + 1) n := by
  intro n
  induction n with
  | zero => simp [bytesAt, List.range_succ]
  | succ m ih =>
    have h1 : bytesAt buf i (m + 1 + 1) =
        bytesAt buf i (m + 1) ++ [byteAt buf (i + (m + 1))] := by
      simp [bytesAt, List.range_succ]
    have h2 : bytesAt buf (i + 1) (m + 1) =
        bytesAt buf (i + 1) m ++ [byteAt buf (i + 1 + m)] := by
      simp [bytesAt, List.range_succ]
    rw [h1, ih, h2]
    have h3 : i + (m + 1) = i + 1 + m := by omega
    rw [h3]
    simp

/-- A stored byte region splits at any interior point. -/
theorem bytesAt_append (buf : List Nat) :
    ∀ (xs ys : List Nat) (i : Nat),
      bytesAt buf i (xs ++ ys).length = xs ++ ys ↔
        (bytesAt buf i xs.length = xs ∧ bytesAt buf (i + xs.length) ys.length = ys) := by
  intro xs
  induction xs with
  | nil => intro ys i; simp [bytesAt]
  | cons a xs ih =>
    intro ys i
    have harith : i + (xs.length + 1) = (i + 1) + xs.length := by omega
    simp only [List.cons_append, List.length_cons, bytesAt_succ, List.cons.injEq,
      List.length_append, harith]
    have ih' := ih ys (i + 1)
    rw [List.length_append] at ih'
    rw [ih']
    exact and_assoc.symm

/-- A length byte at most 0x3F never carries the pointer marker bits. -/
theorem land_c0_ne (n : Nat) (h : n ≤ 0x3F) : n &&& 0xC0 ≠ 0xC0 := by
  intro hc
  have := Nat.and_le_left (n := n) (m := 0xC0)
  omega

/-- Unfolding of the uncompressed name encoding. -/
theorem encodeName_cons (l : List Nat) (rest : List (List Nat)) :
    encodeName (l :: rest) = (l.length :: l) ++ encodeName rest := by
  simp [encodeName]

/-- An encoded name is at least one byte per label plus the closing zero. -/
theorem encodeName_length_ge : ∀ labels : List (List Nat),
    labels.length + 1 ≤ (encodeName labels).length := by
  intro labels
  induction labels with
  | nil => simp [encodeName]
  | cons l rest ih =>
    rw [encodeName_cons]
    simp only [List.length_append, List.length_cons]
    omega

/-- Fuel monotonicity: once the C while loop exits, more fuel cannot change
the exit. -/
theorem parseQNameLoop_mono (buf : List Nat) :
    ∀ (n : Nat) (s : QNameState) (e : QNameExit),
      parseQNameLoop buf n s = some e →
      ∀ m, n ≤ m → parseQNameLoop buf m s = some e := by
  intro n
  induction n with
  | zero => intro s e h; exact Option.noConfusion h
  | succ k ih =>
    intro s e h m hm
    match m, hm with
    | m' + 1, _ =>
      rw [parseQNameLoop] at h ⊢
      cases hstep : parseQNameStep buf s with
      | inl ex => rw [hstep] at h; exact h
      | inr s1 =>
        rw [hstep] at h
        exact ih s1 e h m' (by omega)

/-- After a redirect, the loop walks a plain stored name at `pos`, appends
its labels, and leaves the frozen msgBuffer offset `ofs` untouched. -/
theorem parseQNameLoop_redirect (buf : List Nat) :
    ∀ (labels frags : List (List Nat)) (pos ofs : Nat) (last : Option Nat),
      (∀ l ∈ labels, l ≠ [] ∧ l.length ≤ 0x3F) →
      bytesAt buf pos (encodeName labels).length = encodeName labels →
      ofs < buf.length →
      parseQNameLoop buf (labels.length + 1) ⟨pos, ofs, buf.length, true, frags, last⟩ =
        some ⟨frags ++ labels, ofs, buf.length, some 0⟩ := by
  intro labels
  induction labels with
  | nil =>
    intro frags pos ofs last _ hst hofs
    have h0 : byteAt buf pos = 0 := by
      have := hst
      simp only [encodeName, List.flatMap_nil, List.nil_append, List.length_cons,
        List.length_nil, bytesAt_succ] at this
      exact (List.cons.injEq _ _ _ _).mp this |>.1
    rw [parseQNameLoop]
    unfold parseQNameStep
    dsimp only
    rw [if_pos hofs, h0]
    rw [if_neg (by decide : ¬((0 : Nat) &&& 0xC0 = 0xC0)), if_pos rfl]
    simp

  | cons L rest ih =>
    intro frags pos ofs last hwf hst hofs
    rw [encodeName_cons] at hst
    rw [bytesAt_append] at hst
    obtain ⟨hfst, hrest⟩ := hst
    simp only [List.length_cons, bytesAt_succ, List.cons.injEq] at hfst
    obtain ⟨hlen, hL⟩ := hfst
    have hLne : L ≠ [] := (hwf L (by simp)).1
    have hLle : L.length ≤ 0x3F := (hwf L (by simp)).2
    have hL0 : L.length ≠ 0 := by
      intro hz; exact hLne (List.length_eq_zero.mp hz)
    rw [List.length_cons, parseQNameLoop]
    have hstep : parseQNameStep buf ⟨pos, ofs, buf.length, true, frags, last⟩ =
        .inr ⟨pos + 1 + L.length, ofs, buf.length, true, frags ++ [L], some L.length⟩ := by
      unfold parseQNameStep
      dsimp only
      rw [if_pos hofs, hlen]
      rw [if_neg (land_c0_ne L.length hLle), if_neg hL0]
      rw [hL]
      simp
    rw [hstep]
    simp only [List.length_cons] at hrest
    have harith : pos + (L.length + 1) = pos + 1 + L.length := by omega
    rw [harith] at hrest
    have := ih (frags ++ [L]) (pos + 1 + L.length) ofs (some L.length)
      (fun l hl => hwf l (List.mem_cons_of_mem _ hl)) hrest hofs
    dsimp only
    rw [this]
    simp

/-- Without redirects the loop walks a plain stored name, appending its
labels and advancing the offset exactly past the encoding. -/
theorem parseQNameLoop_inline (buf : List Nat) :
    ∀ (labels frags : List (List Nat)) (pos : Nat) (last : Option Nat),
      (∀ l ∈ labels, l ≠ [] ∧ l.length ≤ 0x3F) →
      bytesAt buf pos (encodeName labels).length = encodeName labels →
      pos + (encodeName labels).length ≤ buf.length →
      parseQNameLoop buf (labels.length + 1) ⟨pos, pos, buf.length, false, frags, last⟩ =
        some ⟨frags ++ labels, pos + (encodeName labels).length, buf.length, some 0⟩ := by
  intro labels
  induction labels with
  | nil =>
    intro frags pos last _ hst hlim
    have h0 : byteAt buf pos = 0 := by
      have := hst
      simp only [encodeName, List.flatMap_nil, List.nil_append, List.length_cons,
        List.length_nil, bytesAt_succ] at this
      exact (List.cons.injEq _ _ _ _).mp this |>.1
    have hlen1 : (encodeName ([] : List (List Nat))).length = 1 := by simp [encodeName]
    rw [hlen1] at hlim ⊢
    rw [parseQNameLoop]
    unfold parseQNameStep
    dsimp only
    rw [if_pos (by omega : pos < buf.length), h0]
    rw [if_neg (by decide : ¬((0 : Nat) &&& 0xC0 = 0xC0)), if_pos rfl]
    simp

  | cons L rest ih =>
    intro frags pos last hwf hst hlim
    rw [encodeName_cons] at hst hlim ⊢
    rw [bytesAt_append] at hst
    obtain ⟨hfst, hrest⟩ := hst
    simp only [List.length_cons, bytesAt_succ, List.cons.injEq] at hfst
    obtain ⟨hlen, hL⟩ := hfst
    have hLne : L ≠ [] := (hwf L (by simp)).1
    have hLle : L.length ≤ 0x3F := (hwf L (by simp)).2
    have hL0 : L.length ≠ 0 := by
      intro hz; exact hLne (List.length_eq_zero.mp hz)
    rw [List.length_cons, parseQNameLoop]
    have hstep : parseQNameStep buf ⟨pos, pos, buf.length, false, frags, last⟩ =
        .inr ⟨pos + 1 + L.length, pos + 1 + L.length, buf.length, false,
              frags ++ [L], some L.length⟩ := by
      unfold parseQNameStep
      dsimp only
      have hpl : pos < buf.length := by
        simp only [List.length_append, List.length_cons] at hlim
        omega
      rw [if_pos hpl, hlen]
      rw [if_neg (land_c0_ne L.length hLle), if_neg hL0]
      rw [hL]
      simp
    rw [hstep]
    simp only [List.length_cons] at hrest
    have harith : pos + (L.length + 1) = pos + 1 + L.length := by omega
    rw [harith] at hrest
    have hlim2 : pos + 1 + L.length + (encodeName rest).length ≤ buf.length := by
      simp only [List.length_append, List.length_cons] at hlim
      omega
    have := ih (frags ++ [L]) (pos + 1 + L.length) (some L.length)
      (fun l hl => hwf l (List.mem_cons_of_mem _ hl)) hrest hlim2
    dsimp only
    rw [this]
    simp only [List.length_append, List.length_cons, Option.some.injEq,
      QNameExit.mk.injEq]
    refine ⟨by simp, by omega, by simp, by simp⟩



/-- parseQName on an inline (pointer-free) encoded name returns its labels
and advances past the whole encoding. -/
theorem parseQName_encodedName (buf2 : List Nat) (labels : List (List Nat)) (o2 : Nat)
    (hwf : ∀ l ∈ labels, l ≠ [] ∧ l.length ≤ 0x3F)
    (hne : labels ≠ [])
    (hst : bytesAt buf2 o2 (encodeName labels).length = encodeName labels)
    (hlim : o2 + (encodeName labels).length ≤ buf2.length) :
    parseQName buf2 o2 (-1) = ⟨some labels, o2 + (encodeName labels).length⟩ := by
  unfold parseQName qnameFuel
  dsimp only
  have hneg : ((-1 : Int) < 0) := by decide
  simp only [if_pos hneg]
  have hfuel : labels.length + 1 ≤ 2 * buf2.length + 16 := by
    have h1 := encodeName_length_ge labels
    omega
  have hloop := parseQNameLoop_mono buf2 (labels.length + 1) _ _
    (parseQNameLoop_inline buf2 labels [] o2 none hwf hst hlim)
    (2 * buf2.length + 16) hfuel
  rw [hloop]
  dsimp only
  rw [if_neg]
  · simp
  · push_neg
    refine ⟨by omega, rfl, ?_⟩
    simpa using hne

/-- C3: a label byte with the top two bits set is treated as a compression
pointer whose 14-bit target offset is ((byte & 0x3F) << 8) | next_byte;
decoding continues at that absolute target, the outer read cursor advances
only past the two pointer bytes (to o + 2) and not past the post-redirect
tail, and the name decodes to exactly the same label sequence as the
equivalent uncompressed (inline) encoding parsed anywhere it fits. -/
theorem qname_pointer_compression (buf : List Nat) (o target : Nat)
    (labels : List (List Nat))
    (hwf : ∀ l ∈ labels, l ≠ [] ∧ l.length ≤ 0x3F)
    (hne : labels ≠ [])
    (hb : byteAt buf o &&& 0xC0 = 0xC0)
    (ht : ((byteAt buf o &&& 0x3F) <<< 8) ||| byteAt buf (o + 1) = target)
    (hstored : bytesAt buf target (encodeName labels).length = encodeName labels)
    (hlim : target + (encodeName labels).length ≤ buf.length)
    (ho : o + 2 < buf.length) :
    parseQName buf o (-1) = ⟨some labels, o + 2⟩ ∧
    ∀ (buf2 : List Nat) (o2 : Nat),
      bytesAt buf2 o2 (encodeName labels).length = encodeName labels →
      o2 + (encodeName labels).length ≤ buf2.length →
      parseQName buf2 o2 (-1) = ⟨some labels, o2 + (encodeName labels).length⟩ := by
  refine ⟨?_, fun buf2 o2 h1 h2 => parseQName_encodedName buf2 labels o2 hwf hne h1 h2⟩
  obtain ⟨L, rest, rfl⟩ : ∃ L rest, labels = L :: rest := by
    cases labels with
    | nil => exact absurd rfl hne
    | cons a b => exact ⟨a, b, rfl⟩
  have hLenTot : rest.length + 2 ≤ (encodeName (L :: rest)).length := by
    have h1 := encodeName_length_ge (L :: rest)
    simp only [List.length_cons] at h1
    omega
  have hfuel : rest.length + 1 ≤ 2 * buf.length + 15 := by
    have h2 := hlim
    omega
  rw [encodeName_cons] at hstored
  rw [bytesAt_append] at hstored
  obtain ⟨hfst, hrest⟩ := hstored
  simp only [List.length_cons, bytesAt_succ, List.cons.injEq] at hfst
  obtain ⟨hlen, hL⟩ := hfst
  have hLne : L ≠ [] := (hwf L (by simp)).1
  have hLle : L.length ≤ 0x3F := (hwf L (by simp)).2
  have hL0 : L.length ≠ 0 := by
    intro hz; exact hLne (List.length_eq_zero.mp hz)
  simp only [List.length_cons] at hrest
  have harith : target + (L.length + 1) = target + 1 + L.length := by omega
  rw [harith] at hrest
  have hstep : parseQNameStep buf ⟨o, o, buf.length, false, [], none⟩ =
      .inr ⟨target + 1 + L.length, o + 2, buf.length, true, [L], some L.length⟩ := by
    unfold parseQNameStep
    dsimp only
    rw [if_pos (show o < buf.length by omega), if_pos hb, ht, hlen]
    rw [if_neg hL0]
    rw [hL]
    simp
  have hred := parseQNameLoop_redirect buf rest [L] (target + 1 + L.length) (o + 2)
    (some L.length) (fun l hl => hwf l (List.mem_cons_of_mem _ hl)) hrest (by omega)
  have hloop := parseQNameLoop_mono buf (rest.length + 1) _ _ hred
    (2 * buf.length + 15) hfuel
  unfold parseQName qnameFuel
  dsimp only
  have hneg : ((-1 : Int) < 0) := by decide
  simp only [if_pos hneg]
  rw [show 2 * buf.length + 16 = (2 * buf.length + 15) + 1 from rfl]
  rw [parseQNameLoop, hstep]
  dsimp only
  rw [hloop]
  dsimp only
  rw [if_neg]
  · simp
  · push_neg
    exact ⟨by omega, rfl, by simp⟩




/-- Witness for C3: on a 7-byte datagram with a pointer at offset 3 to the
inline name "a" at offset 0, the compressed parse yields [[0x61]] with the
cursor at 5, the inline parse yields the same labels with cursor 3. -/
theorem qname_pointer_compression_witness :
    parseQName qnamePtrInput 3 (-1) = ⟨some [[0x61]], 5⟩ ∧
    parseQName qnamePtrInput 0 (-1) = ⟨some [[0x61]], 3⟩ := by
  have h := qname_pointer_compression qnamePtrInput 3 0 [[0x61]]
    (by decide) (by decide) (by decide) (by decide) (by decide) (by decide) (by decide)
  exact ⟨h.1, h.2 qnamePtrInput 0 (by decide) (by decide)⟩


end CastPortal
